import Mathlib

/-!
Verification of the api-analytics ingestion pipeline.

The definitions below shallowly embed the two Go sources:
* `src/server/logger/main.go` — the ingestion handler: GeoIP country lookup,
  privacy redaction, per-event validation, batched multi-row INSERT building,
  and the HTTP control flow;
* `src/analytics/go/core/core.go` — the client-side buffer/flush scheduler.

External collaborators that are not part of the repository (the GeoIP database,
the `database.Valid*` field validators, the rate limiter library, the SQL
connection) are modelled as explicit parameters (`GeoEnv`, `Validators`,
`rateLimited`, `storageOk`), so every theorem is about the control flow and
data transformations of the repository code itself.
-/

namespace ApiAnalytics

/-- Server-side event record (struct `RequestData` in `main.go`).
Go `int16` fields carry no arithmetic here, so they are embedded as `Int`. -/
structure RequestData where
  path : String
  hostname : String
  ipAddress : String
  userAgent : String
  method : String
  status : Int
  responseTime : Int
  userID : String
  createdAt : String
deriving Repr, DecidableEq

/-- Server-side batch payload (struct `Payload` in `main.go`).
`PrivacyLevel` is a plain Go `int`, embedded as `Int`. -/
structure Payload where
  apiKey : String
  requests : List RequestData
  framework : String
  privacyLevel : Int
deriving Repr, DecidableEq

/-- `type PrivacyLevel int` from `main.go`. -/
abbrev PrivacyLevel := Int

/-- `P1 PrivacyLevel = iota` (= 0): IP stored, location inferred and stored. -/
def P1 : PrivacyLevel := 0

/-- `P2` (= 1): location inferred and stored, IP discarded. -/
def P2 : PrivacyLevel := 1

/-- `P3` (= 2): IP never used, no location inferred. -/
def P3 : PrivacyLevel := 2

/-- Environment for the GeoIP collaborator used by `getCountryCode`:
whether `geoip2.Open` succeeds, whether `net.ParseIP` accepts the string,
and the result of `db.Country` (an error, or the record's ISO country code). -/
structure GeoEnv where
  dbAvailable : Bool
  parseIP : String → Bool
  country : String → Except Unit String

/-- `getCountryCode` from `main.go`: empty string, unopenable database,
unparsable IP and lookup error all yield `""`; otherwise the ISO code. -/
def getCountryCode (env : GeoEnv) (IPAddress : String) : String :=
  if IPAddress = "" then ""
  else if !env.dbAvailable then ""
  else if !env.parseIP IPAddress then ""
  else
    match env.country IPAddress with
    | .error _ => ""
    | .ok isoCode => isoCode

/-- The privacy-redaction step of the handler loop (`main.go` lines 165-174):
location is inferred from the (original) IP for levels below `P3`, and the
IP address is cleared for levels above `P1`. Returns `(location, event)`. -/
def redact (env : GeoEnv) (privacyLevel : PrivacyLevel) (request : RequestData) :
    String × RequestData :=
  let location := if privacyLevel < P3 then getCountryCode env request.ipAddress else ""
  let request := if privacyLevel > P1 then { request with ipAddress := "" } else request
  (location, request)

/-- The `methodID` map from `main.go`: the fixed enumerated HTTP methods. -/
def methodID : String → Option Int
  | "GET" => some 0
  | "POST" => some 1
  | "PUT" => some 2
  | "PATCH" => some 3
  | "DELETE" => some 4
  | "OPTIONS" => some 5
  | "CONNECT" => some 6
  | "HEAD" => some 7
  | "TRACE" => some 8
  | _ => none

/-- The `frameworkID` map from `main.go`: the fixed enumerated frameworks. -/
def frameworkID : String → Option Int
  | "FastAPI" => some 0
  | "Flask" => some 1
  | "Gin" => some 2
  | "Echo" => some 3
  | "Express" => some 4
  | "Fastify" => some 5
  | "Koa" => some 6
  | "Chi" => some 7
  | "Fiber" => some 8
  | "Actix" => some 9
  | "Axum" => some 10
  | "Tornado" => some 11
  | "Django" => some 12
  | "Rails" => some 13
  | "Laravel" => some 14
  | "Sinatra" => some 15
  | "Rocket" => some 16
  | "ASP.NET Core" => some 17
  | _ => none

/-- `const maxInsert int = 2000` from `main.go`. -/
def maxInsert : Nat := 2000

/-- The per-field truncation `if len(s) > 255 { s = s[:255] }` from the
handler loop, at character granularity. -/
def truncate255 (s : String) : String :=
  if 255 < s.length then (s.toList.take 255).asString else s

/-- One row of the batched insert: the 12 values appended to `arguments`
for an admitted event, in source order. -/
structure Row where
  apiKey : String
  path : String
  hostname : String
  ipAddress : String
  userAgent : String
  status : Int
  responseTime : Int
  method : Int
  framework : Int
  location : String
  userID : String
  createdAt : String
deriving Repr, DecidableEq

/-- A value in the flat SQL argument list (Go `[]any` holding strings and
integer codes). -/
inductive Arg
  | str : String → Arg
  | int : Int → Arg
deriving Repr, DecidableEq

/-- The 12 arguments appended for one admitted row, in the order of the
`arguments = append(...)` call in `main.go`. -/
def rowArgs (row : Row) : List Arg :=
  [.str row.apiKey, .str row.path, .str row.hostname, .str row.ipAddress,
   .str row.userAgent, .int row.status, .int row.responseTime, .int row.method,
   .int row.framework, .str row.location, .str row.userID, .str row.createdAt]

/-- The per-event parameters of the handler loop: the GeoIP environment, the
field validators (the `database.Valid*` functions live outside this
repository's sources and are abstract here), and the batch-level
privacy level, framework code and API key. -/
structure Validators where
  validUserAgent : String → Bool
  validUserID : String → Bool
  validHostname : String → Bool
  validPath : String → Bool

structure EventParams where
  geo : GeoEnv
  validators : Validators
  privacyLevel : PrivacyLevel
  framework : Int
  apiKey : String

/-- Outcome of the per-event body of the handler loop: a row admitted into the
insert, a silent drop, or a drop that additionally records the bad user agent. -/
inductive EventOutcome
  | admitted : Row → EventOutcome
  | droppedBadUserAgent : String → EventOutcome
  | dropped : EventOutcome
deriving Repr, DecidableEq

/-- The body of the handler loop for one event (`main.go` lines 165-244,
without the query/argument bookkeeping): redaction, method check, and the
truncate-then-validate sequence for user agent, user id, hostname and path. -/
def processEvent (P : EventParams) (request : RequestData) : EventOutcome :=
  let lr := redact P.geo P.privacyLevel request
  let location := lr.1
  let request := lr.2
  match methodID request.method with
  | none => .dropped
  | some method =>
    let userAgent := truncate255 request.userAgent
    if !P.validators.validUserAgent userAgent then .droppedBadUserAgent userAgent
    else
      let userID := truncate255 request.userID
      if !P.validators.validUserID userID then .dropped
      else
        let hostname := truncate255 request.hostname
        if !P.validators.validHostname hostname then .dropped
        else
          let path := truncate255 request.path
          if !P.validators.validPath path then .dropped
          else .admitted
            { apiKey := P.apiKey
              path := path
              hostname := hostname
              ipAddress := request.ipAddress
              userAgent := userAgent
              status := request.status
              responseTime := request.responseTime
              method := method
              framework := P.framework
              location := location
              userID := userID
              createdAt := request.createdAt }

/-- Rendering of one placeholder group, as written by the
`fmt.Sprintf("($%d,...,$%d)", ...)` call in `main.go`. -/
def renderGroup (g : List Nat) : String :=
  "(" ++ String.intercalate "," (g.map (fun i => "$" ++ toString i)) ++ ")"

/-- Comma-separated concatenation of already-rendered pieces, the shape the
incremental `query.WriteString` calls of the loop produce. -/
def commaSep : List String → String
  | [] => ""
  | x :: xs => xs.foldl (fun acc y => acc ++ "," ++ y) x

/-- The fixed head of the insert statement (`query.WriteString` at line 155). -/
def queryHead : String :=
  "INSERT INTO requests (api_key, path, hostname, ip_address, user_agent, status, response_time, method, framework, location, user_id, created_at) VALUES "

/-- The mutable state of the handler loop: the placeholder groups written so
far, the query text, the flat argument list, the admitted rows, the
`inserted` counter and the collected bad user agents. -/
structure LoopState where
  queryGroups : List (List Nat)
  query : String
  arguments : List Arg
  rows : List Row
  inserted : Nat
  badUserAgents : List String
deriving Repr, DecidableEq

/-- Loop state before the first iteration: `query` holds only the head,
`arguments` is empty, `inserted = 0`. -/
def initialLoopState : LoopState :=
  { queryGroups := [], query := queryHead, arguments := [], rows := [],
    inserted := 0, badUserAgents := [] }

/-- The handler loop of `main.go` (lines 159-245). `totalLen` is
`len(payload.Requests)`, used by the comma condition at line 211. The loop
breaks when `inserted >= maxInsert`; a dropped event leaves the
query/argument state untouched; an admitted event appends one placeholder
group `$(numArgs+1)..$(numArgs+12)` and its 12 arguments. -/
def insertLoop (P : EventParams) (totalLen : Nat) :
    List RequestData → LoopState → LoopState
  | [], s => s
  | request :: rest, s =>
    if s.inserted ≥ maxInsert then s
    else
      match processEvent P request with
      | .dropped => insertLoop P totalLen rest s
      | .droppedBadUserAgent userAgent =>
        insertLoop P totalLen rest
          { s with badUserAgents := s.badUserAgents ++ [userAgent] }
      | .admitted row =>
        let numArgs := s.arguments.length
        let group := List.range' (numArgs + 1) 12
        let sep :=
          if 0 < s.inserted ∧ s.inserted < maxInsert ∧ s.inserted < totalLen
          then "," else ""
        insertLoop P totalLen rest
          { queryGroups := s.queryGroups ++ [group]
            query := s.query ++ sep ++ renderGroup group
            arguments := s.arguments ++ rowArgs row
            rows := s.rows ++ [row]
            inserted := s.inserted + 1
            badUserAgents := s.badUserAgents }

/-- Reference description of which rows the loop admits: the events whose
`processEvent` outcome is `admitted`, in input order, stopping once `cap`
rows have been taken. Used to state order preservation of `insertLoop`. -/
def admittedCapped (P : EventParams) : Nat → List RequestData → List Row
  | _, [] => []
  | cap, request :: rest =>
    if cap = 0 then []
    else
      match processEvent P request with
      | .admitted row => row :: admittedCapped P (cap - 1) rest
      | _ => admittedCapped P cap rest

/-- Bookkeeping invariant of the loop state: the argument list is flat with
12 entries per admitted row, the placeholder groups count the admitted rows
and flatten to the contiguous strictly increasing indices `1..12*inserted`,
at most `maxInsert` rows are admitted, the arguments are exactly the admitted
rows' values in order, and the query text is the head followed by the
comma-separated rendered groups. -/
def LoopInv (s : LoopState) : Prop :=
  s.arguments.length = 12 * s.inserted ∧
  s.queryGroups.length = s.inserted ∧
  s.queryGroups.flatten = List.range' 1 (12 * s.inserted) ∧
  s.inserted ≤ maxInsert ∧
  s.arguments = (s.rows.map rowArgs).flatten ∧
  s.rows.length = s.inserted ∧
  s.query = queryHead ++ commaSep (s.queryGroups.map renderGroup)

/-- The collaborators of one handler invocation: GeoIP environment, field
validators, the rate limiter verdict per API key (`ratelimit` library, outside
the repository sources) and whether the `conn.Exec` storage write succeeds. -/
structure HandlerEnv where
  geo : GeoEnv
  validators : Validators
  rateLimited : String → Bool
  storageOk : Bool

/-- Observable outcome of one handler invocation: HTTP status and message of
the JSON response, whether `conn.Exec` was reached, and (when it was) the
executed statement's placeholder groups, text, flat arguments and rows. -/
structure HandlerOutput where
  status : Nat
  message : String
  storageCalled : Bool
  queryGroups : List (List Nat)
  query : String
  arguments : List Arg
  rows : List Row
deriving Repr, DecidableEq

/-- The loop state the handler computes for a batch: the handler's
`let P := ...; let s := insertLoop ...` prelude, named. -/
def runBatch (env : HandlerEnv) (payload : Payload) (framework : Int) : LoopState :=
  insertLoop ⟨env.geo, env.validators, payload.privacyLevel, framework, payload.apiKey⟩
    payload.requests.length payload.requests initialLoopState

/-- The handler of `main.go` (lines 122-279). `payload = none` models a
`BindJSON` failure. The guard order is exactly the source's: parse, API-key
presence, rate limit, empty list, framework, loop, zero-inserted check,
storage write. -/
def logRequestHandler (env : HandlerEnv) (payload : Option Payload) : HandlerOutput :=
  match payload with
  | none => ⟨400, "Invalid request data.", false, [], "", [], []⟩
  | some payload =>
    if payload.apiKey = "" then
      ⟨400, "API key requied.", false, [], "", [], []⟩
    else if env.rateLimited payload.apiKey then
      ⟨429, "Too many requests.", false, [], "", [], []⟩
    else if payload.requests.length = 0 then
      ⟨400, "Payload contains no logged requests.", false, [], "", [], []⟩
    else
      match frameworkID payload.framework with
      | none => ⟨400, "Unsupported API framework.", false, [], "", [], []⟩
      | some framework =>
        let s := runBatch env payload framework
        if s.inserted = 0 then
          ⟨400, "Invalid request data.", false, [], "", [], []⟩
        else if env.storageOk then
          ⟨201, "API requests logged successfully.", true,
            s.queryGroups, s.query ++ ";", s.arguments, s.rows⟩
        else
          ⟨400, "Invalid data.", true,
            s.queryGroups, s.query ++ ";", s.arguments, s.rows⟩

/-! ### Client-side buffer/flush scheduler (`src/analytics/go/core/core.go`) -/

/-- Client-side event record (struct `RequestData` in `core.go`). -/
structure CoreRequestData where
  hostname : String
  ipAddress : String
  path : String
  userAgent : String
  method : String
  responseTime : Int
  status : Int
  userID : String
  createdAt : String
deriving Repr, DecidableEq

/-- Client-side batch payload (struct `Payload` in `core.go`). -/
structure CorePayload where
  apiKey : String
  requests : List CoreRequestData
  framework : String
  privacyLevel : Int
deriving Repr, DecidableEq

/-- The scheduler's process-wide state: the global `requests` buffer and the
`lastPosted` clock reading (nanoseconds, as Go's `time.Time`/`time.Duration`). -/
structure ClientState where
  requests : List CoreRequestData
  lastPosted : Int
deriving Repr, DecidableEq

/-- `time.Minute` in nanoseconds. -/
def timeMinute : Int := 60000000000

/-- `LogRequest` from `core.go`, with the global state and the current clock
reading passed explicitly. Returns the new state and the payload handed to
`go postRequest` when the flush condition `time.Since(lastPosted) > time.Minute`
fires (at most one flush per call, by construction). -/
def LogRequest (apiKey : String) (request : CoreRequestData) (framework : String)
    (privacyLevel : Int) (st : ClientState) (now : Int) :
    ClientState × Option CorePayload :=
  if apiKey = "" then (st, none)
  else
    let buffered := st.requests ++ [request]
    if timeMinute < now - st.lastPosted then
      (⟨[], now⟩, some ⟨apiKey, buffered, framework, privacyLevel⟩)
    else
      (⟨buffered, st.lastPosted⟩, none)

/-! ### Interleaving model of the unsynchronized client buffer

`core.go` guards `requests = append(requests, request)` with no mutex or
atomic, so two concurrent `LogRequest` calls race on the global slice. Each
call is modelled as two atomic machine steps — read the global slice, then
write back the snapshot extended by the event — and a schedule interleaves
the steps of two calls. -/

/-- Program counter of one in-flight `append`: about to read the global,
about to write it back, or done. -/
inductive ThreadPC
  | toRead
  | toWrite
  | done
deriving Repr, DecidableEq

/-- Shared global plus the two threads' snapshots and program counters. -/
structure RaceState where
  shared : List CoreRequestData
  snap1 : List CoreRequestData
  snap2 : List CoreRequestData
  pc1 : ThreadPC
  pc2 : ThreadPC
deriving Repr, DecidableEq

/-- One machine step of a single thread appending `event`: the read takes a
snapshot of the global slice, the write stores the snapshot plus the event.
Returns (new shared, new snapshot, new pc). -/
def threadStep (event : CoreRequestData) (shared snap : List CoreRequestData)
    (pc : ThreadPC) : List CoreRequestData × List CoreRequestData × ThreadPC :=
  match pc with
  | .toRead => (shared, shared, .toWrite)
  | .toWrite => (snap ++ [event], snap, .done)
  | .done => (shared, snap, .done)

/-- Run one scheduled step: `tid = true` steps thread 1 (appending `e1`),
`tid = false` steps thread 2 (appending `e2`). -/
def raceStep (e1 e2 : CoreRequestData) (s : RaceState) (tid : Bool) : RaceState :=
  if tid then
    let r := threadStep e1 s.shared s.snap1 s.pc1
    { s with shared := r.1, snap1 := r.2.1, pc1 := r.2.2 }
  else
    let r := threadStep e2 s.shared s.snap2 s.pc2
    { s with shared := r.1, snap2 := r.2.1, pc2 := r.2.2 }

/-- Execute a schedule of interleaved steps of two concurrent appends,
starting from an empty buffer. -/
def runRace (e1 e2 : CoreRequestData) (schedule : List Bool) : RaceState :=
  schedule.foldl (raceStep e1 e2) ⟨[], [], [], .toRead, .toRead⟩

/-! ### Concrete fixtures used by the witness theorems -/

/-- A GeoIP environment that resolves every parsable IP to "US". -/
def geoUS : GeoEnv := ⟨true, fun _ => true, fun _ => .ok "US"⟩

/-- A GeoIP environment with no database available. -/
def geoNone : GeoEnv := ⟨false, fun _ => false, fun _ => .error ()⟩

/-- Validators that accept every field value. -/
def allValid : Validators := ⟨fun _ => true, fun _ => true, fun _ => true, fun _ => true⟩

/-- A well-formed GET event. -/
def reqGET : RequestData :=
  ⟨"/x", "example.com", "8.8.8.8", "ua", "GET", 200, 12, "", "2024-01-01T00:00:00Z"⟩

/-- The same event with an unknown HTTP method. -/
def reqBogus : RequestData := { reqGET with method := "BOGUS" }

/-- Event parameters: `geoUS`, all-accepting validators, privacy level `P1`,
framework code 1 (Flask), API key "k1". -/
def paramsC : EventParams := ⟨geoUS, allValid, 0, 1, "k1"⟩

/-- The row `processEvent paramsC reqGET` admits. -/
def rowC : Row :=
  ⟨"k1", "/x", "example.com", "8.8.8.8", "ua", 200, 12, 0, 1, "US", "",
   "2024-01-01T00:00:00Z"⟩

/-- Handler environment: not rate limited, storage write succeeds. -/
def envOk : HandlerEnv := ⟨geoUS, allValid, fun _ => false, true⟩

/-- Handler environment in which every key is rate limited. -/
def envRL : HandlerEnv := ⟨geoUS, allValid, fun _ => true, true⟩

/-- A batch whose single event has an unknown method. -/
def payloadBogus : Payload := ⟨"k1", [reqBogus], "Flask", 0⟩

/-- A batch with one well-formed event. -/
def payloadOne : Payload := ⟨"k1", [reqGET], "Flask", 0⟩

/-- A batch of 3000 well-formed events. -/
def payload3000 : Payload := ⟨"k1", List.replicate 3000 reqGET, "Flask", 0⟩

/-- Two distinct client-side events. -/
def e1C : CoreRequestData := ⟨"h1", "", "/a", "ua", "GET", 1, 200, "", "t1"⟩

def e2C : CoreRequestData := ⟨"h2", "", "/b", "ua", "GET", 2, 200, "", "t2"⟩

/-! ## Helper lemmas -/

theorem truncate255_length_le (s : String) : (truncate255 s).length ≤ 255 := by
  unfold truncate255
  split
  · rw [List.length_asString]
    simp [List.length_take]
  · omega

theorem redact_fst_eq (env : GeoEnv) (level : PrivacyLevel) (r : RequestData) :
    (redact env level r).1 =
      if level < P3 then getCountryCode env r.ipAddress else "" := rfl

theorem redact_snd_eq (env : GeoEnv) (level : PrivacyLevel) (r : RequestData) :
    (redact env level r).2 =
      if level > P1 then { r with ipAddress := "" } else r := rfl

theorem getCountryCode_empty (env : GeoEnv) : getCountryCode env "" = "" := rfl

theorem setIp_empty_self (r : RequestData) (h : r.ipAddress = "") :
    ({ r with ipAddress := "" } : RequestData) = r := by
  cases r
  dsimp at h
  rw [h]

theorem redact_keeps_method (env : GeoEnv) (l : Int) (r : RequestData) :
    ((redact env l r).2).method = r.method := by
  rw [redact_snd_eq]; split <;> rfl

theorem redact_keeps_userAgent (env : GeoEnv) (l : Int) (r : RequestData) :
    ((redact env l r).2).userAgent = r.userAgent := by
  rw [redact_snd_eq]; split <;> rfl

theorem redact_keeps_userID (env : GeoEnv) (l : Int) (r : RequestData) :
    ((redact env l r).2).userID = r.userID := by
  rw [redact_snd_eq]; split <;> rfl

theorem redact_keeps_hostname (env : GeoEnv) (l : Int) (r : RequestData) :
    ((redact env l r).2).hostname = r.hostname := by
  rw [redact_snd_eq]; split <;> rfl

theorem redact_keeps_path (env : GeoEnv) (l : Int) (r : RequestData) :
    ((redact env l r).2).path = r.path := by
  rw [redact_snd_eq]; split <;> rfl

theorem redact_keeps_status (env : GeoEnv) (l : Int) (r : RequestData) :
    ((redact env l r).2).status = r.status := by
  rw [redact_snd_eq]; split <;> rfl

theorem redact_keeps_responseTime (env : GeoEnv) (l : Int) (r : RequestData) :
    ((redact env l r).2).responseTime = r.responseTime := by
  rw [redact_snd_eq]; split <;> rfl

theorem redact_keeps_createdAt (env : GeoEnv) (l : Int) (r : RequestData) :
    ((redact env l r).2).createdAt = r.createdAt := by
  rw [redact_snd_eq]; split <;> rfl

/-- Full characterization of when the per-event body admits a row, and of the
admitted row's contents. -/
theorem processEvent_admitted_iff (P : EventParams) (r : RequestData) (row : Row) :
    processEvent P r = .admitted row ↔
      ∃ m, methodID r.method = some m ∧
        P.validators.validUserAgent (truncate255 r.userAgent) = true ∧
        P.validators.validUserID (truncate255 r.userID) = true ∧
        P.validators.validHostname (truncate255 r.hostname) = true ∧
        P.validators.validPath (truncate255 r.path) = true ∧
        row = ⟨P.apiKey, truncate255 r.path, truncate255 r.hostname,
               (redact P.geo P.privacyLevel r).2.ipAddress,
               truncate255 r.userAgent, r.status, r.responseTime, m, P.framework,
               (redact P.geo P.privacyLevel r).1, truncate255 r.userID,
               r.createdAt⟩ := by
  simp only [processEvent, redact_keeps_method, redact_keeps_userAgent,
    redact_keeps_userID, redact_keeps_hostname, redact_keeps_path,
    redact_keeps_status, redact_keeps_responseTime, redact_keeps_createdAt]
  cases hm : methodID r.method with
  | none => simp
  | some m =>
    simp only [Option.some.injEq]
    cases hua : P.validators.validUserAgent (truncate255 r.userAgent) <;>
      cases hid : P.validators.validUserID (truncate255 r.userID) <;>
        cases hhn : P.validators.validHostname (truncate255 r.hostname) <;>
          cases hp : P.validators.validPath (truncate255 r.path) <;>
            simp [hua, hid, hhn, hp, eq_comm]

/-- Characterization of the bad-user-agent drop: the user agent is validated
after truncation and the truncated value is what gets collected. -/
theorem processEvent_badUserAgent_iff (P : EventParams) (r : RequestData) (ua : String) :
    processEvent P r = .droppedBadUserAgent ua ↔
      (∃ m, methodID r.method = some m) ∧
        P.validators.validUserAgent (truncate255 r.userAgent) = false ∧
        ua = truncate255 r.userAgent := by
  simp only [processEvent, redact_keeps_method, redact_keeps_userAgent,
    redact_keeps_userID, redact_keeps_hostname, redact_keeps_path]
  cases hm : methodID r.method with
  | none => simp
  | some m =>
    cases hua : P.validators.validUserAgent (truncate255 r.userAgent) <;>
      cases hid : P.validators.validUserID (truncate255 r.userID) <;>
        cases hhn : P.validators.validHostname (truncate255 r.hostname) <;>
          cases hp : P.validators.validPath (truncate255 r.path) <;>
            simp [hua, hid, hhn, hp, eq_comm]

/-- An event with an unknown HTTP method is dropped silently. -/
theorem processEvent_dropped_of_unknown_method (P : EventParams) (r : RequestData)
    (hm : methodID r.method = none) : processEvent P r = .dropped := by
  simp only [processEvent, redact_keeps_method, hm]

theorem rowArgs_length (row : Row) : (rowArgs row).length = 12 := rfl

theorem commaSep_append (xs : List String) (y : String) :
    commaSep (xs ++ [y]) = if xs = [] then y else commaSep xs ++ "," ++ y := by
  cases xs with
  | nil => rfl
  | cons x xs => simp [commaSep, List.foldl_append]

theorem initialLoopState_inv : LoopInv initialLoopState := by
  refine ⟨rfl, rfl, rfl, by simp [initialLoopState, maxInsert], rfl, rfl, ?_⟩
  simp [initialLoopState, commaSep]

/-- Main loop invariant: running the handler loop from a state satisfying
`LoopInv` preserves it, and appends to `rows` exactly the admitted events in
input order, capped at the remaining budget `maxInsert - inserted`. -/
theorem insertLoop_inv (P : EventParams) (totalLen : Nat) :
    ∀ (reqs : List RequestData) (s : LoopState), LoopInv s →
      s.inserted + reqs.length ≤ totalLen →
      LoopInv (insertLoop P totalLen reqs s) ∧
      (insertLoop P totalLen reqs s).rows =
        s.rows ++ admittedCapped P (maxInsert - s.inserted) reqs := by
  intro reqs
  induction reqs with
  | nil =>
    intro s hinv _
    rw [insertLoop]
    exact ⟨hinv, by simp [admittedCapped]⟩
  | cons r rest ih =>
    intro s hinv hlen
    obtain ⟨h1, h2, h3, h4, h5, h6, h7⟩ := hinv
    rw [insertLoop]
    by_cases hmax : s.inserted ≥ maxInsert
    · rw [if_pos hmax]
      have hc : maxInsert - s.inserted = 0 := by omega
      rw [hc]
      exact ⟨⟨h1, h2, h3, h4, h5, h6, h7⟩, by simp [admittedCapped]⟩
    · rw [if_neg hmax]
      have hcap : ¬ maxInsert - s.inserted = 0 := by omega
      cases hpe : processEvent P r with
      | dropped =>
        have hrec := ih s ⟨h1, h2, h3, h4, h5, h6, h7⟩ (by simp at hlen; omega)
        refine ⟨hrec.1, ?_⟩
        rw [hrec.2]
        congr 1
        rw [admittedCapped, if_neg hcap, hpe]
      | droppedBadUserAgent ua =>
        have hrec := ih { s with badUserAgents := s.badUserAgents ++ [ua] }
          ⟨h1, h2, h3, h4, h5, h6, h7⟩ (by simp at hlen ⊢; omega)
        refine ⟨hrec.1, ?_⟩
        rw [hrec.2]
        congr 1
        rw [admittedCapped, if_neg hcap, hpe]
      | admitted row =>
        have hlt : s.inserted < totalLen := by simp at hlen; omega
        have hsep :
            (if 0 < s.inserted ∧ s.inserted < maxInsert ∧ s.inserted < totalLen
             then "," else "") = if 0 < s.inserted then "," else "" := by
          by_cases h0 : 0 < s.inserted
          · rw [if_pos ⟨h0, by omega, hlt⟩, if_pos h0]
          · rw [if_neg (by tauto), if_neg h0]
        have hinv2 : LoopInv
            { queryGroups := s.queryGroups ++ [List.range' (s.arguments.length + 1) 12]
              query := s.query ++
                (if 0 < s.inserted ∧ s.inserted < maxInsert ∧ s.inserted < totalLen
                 then "," else "") ++
                renderGroup (List.range' (s.arguments.length + 1) 12)
              arguments := s.arguments ++ rowArgs row
              rows := s.rows ++ [row]
              inserted := s.inserted + 1
              badUserAgents := s.badUserAgents } := by
          refine ⟨?_, ?_, ?_, ?_, ?_, ?_, ?_⟩
          · simp [rowArgs_length, h1]; ring
          · simp [h2]
          · show (s.queryGroups ++ [List.range' (s.arguments.length + 1) 12]).flatten = _
            rw [List.flatten_append, h3, h1]
            have e1 : List.range' (12 * s.inserted + 1) 12 =
                List.range' (1 + 12 * s.inserted) 12 := by
              congr 1
              omega
            have e2 : 12 * (s.inserted + 1) = 12 + 12 * s.inserted := by ring
            rw [e2, ← List.range'_append_1 1 (12 * s.inserted) 12]
            simp [e1]
          · show s.inserted + 1 ≤ maxInsert
            omega
          · show s.arguments ++ rowArgs row = ((s.rows ++ [row]).map rowArgs).flatten
            rw [List.map_append, List.flatten_append, ← h5]
            simp
          · simp [h6]
          · show s.query ++ _ ++ _ = queryHead ++
              commaSep (((s.queryGroups ++ [List.range' (s.arguments.length + 1) 12])).map renderGroup)
            rw [List.map_append, List.map_singleton, commaSep_append, hsep, h7]
            by_cases h0 : 0 < s.inserted
            · have hne : ¬ s.queryGroups.map renderGroup = [] := by
                simp only [List.map_eq_nil_iff]
                intro hq
                rw [hq] at h2
                simp at h2
                omega
              rw [if_pos h0, if_neg hne]
              simp [String.append_assoc]
            · have h0' : s.inserted = 0 := by omega
              have hq : s.queryGroups = [] := by
                rw [← List.length_eq_zero, h2, h0']
              rw [if_neg h0, hq]
              simp [commaSep]
        have hrec := ih _ hinv2 (by simp at hlen ⊢; omega)
        refine ⟨hrec.1, ?_⟩
        rw [hrec.2]
        show _ = s.rows ++ admittedCapped P (maxInsert - s.inserted) (r :: rest)
        rw [admittedCapped, if_neg hcap, hpe]
        have hc2 : maxInsert - s.inserted - 1 = maxInsert - (s.inserted + 1) := by omega
        simp [hc2]

/-! ## Claims -/

/-- C4: a rate-limited batch yields status 429 ("Too many requests.") with no
per-event work and no storage write (the 429 output is a constant,
independent of the request list, framework and privacy level, so the check
precedes the empty-list check, the framework check and the loop); the check
comes after parsing (a parse failure answers 400 "Invalid request data."
regardless of the rate limiter) and after the API-key presence check (an
empty key answers 400 "API key requied." regardless of the rate limiter). -/
theorem C4_rate_limited :
    (∀ (env : HandlerEnv) (p : Payload),
        p.apiKey ≠ "" → env.rateLimited p.apiKey = true →
        logRequestHandler env (some p) =
          ⟨429, "Too many requests.", false, [], "", [], []⟩) ∧
    (∀ env : HandlerEnv,
        logRequestHandler env none =
          ⟨400, "Invalid request data.", false, [], "", [], []⟩) ∧
    (∀ (env : HandlerEnv) (p : Payload), p.apiKey = "" →
        logRequestHandler env (some p) =
          ⟨400, "API key requied.", false, [], "", [], []⟩) := by
  refine ⟨fun env p hk hrl => ?_, fun env => rfl, fun env p hk => ?_⟩
  · simp [logRequestHandler, hk, hrl]
  · simp [logRequestHandler, hk]

/-- Witness for C4 at a concrete rate-limited environment and payload. -/
theorem C4_rate_limited_witness :
    logRequestHandler envRL (some payloadBogus) =
      ⟨429, "Too many requests.", false, [], "", [], []⟩ :=
  C4_rate_limited.1 envRL payloadBogus (by decide) rfl

/-- C7: a capture with an empty API key is a no-op (nothing buffered, no
flush); with a non-empty key the event is appended, and when the elapsed
time since the last flush exceeds one minute the single flush sends the
whole buffer (including the new event) as one payload, clears the buffer
and resets the last-posted timestamp to now; otherwise no flush happens. -/
theorem C7_client_scheduler :
    (∀ (st : ClientState) (r : CoreRequestData) (fr : String) (lvl now : Int),
        LogRequest "" r fr lvl st now = (st, none)) ∧
    (∀ (apiKey : String) (st : ClientState) (r : CoreRequestData)
        (fr : String) (lvl now : Int), apiKey ≠ "" →
        (¬ timeMinute < now - st.lastPosted →
          LogRequest apiKey r fr lvl st now =
            (⟨st.requests ++ [r], st.lastPosted⟩, none)) ∧
        (timeMinute < now - st.lastPosted →
          LogRequest apiKey r fr lvl st now =
            (⟨[], now⟩, some ⟨apiKey, st.requests ++ [r], fr, lvl⟩))) := by
  refine ⟨fun st r fr lvl now => ?_,
    fun k st r fr lvl now hk => ⟨fun h => ?_, fun h => ?_⟩⟩
  · simp [LogRequest]
  · simp [LogRequest, hk, h]
  · simp [LogRequest, hk, h]

/-- Witness for C7: an overdue capture flushes the two-event buffer, and an
empty-key capture is a no-op. -/
theorem C7_client_scheduler_witness :
    LogRequest "k1" e2C "Gin" 0 ⟨[e1C], 0⟩ 60000000001 =
      (⟨[], 60000000001⟩, some ⟨"k1", [e1C, e2C], "Gin", 0⟩) ∧
    LogRequest "" e2C "Gin" 0 ⟨[e1C], 0⟩ 60000000001 = (⟨[e1C], 0⟩, none) :=
  ⟨((C7_client_scheduler.2 "k1" ⟨[e1C], 0⟩ e2C "Gin" 0 60000000001
      (by decide)).2 (by decide)),
   C7_client_scheduler.1 ⟨[e1C], 0⟩ e2C "Gin" 0 60000000001⟩

/-- C8: redaction is idempotent on already-redacted events. For privacy
levels above `P1` the redacted event has an empty IP; redacting an event
whose IP is already empty returns the event unchanged with an empty
location (the country lookup on an empty IP string returns ""); hence
applying the redaction step a second time is a no-op. -/
theorem C8_redaction_idempotent :
    ∀ (env : GeoEnv) (level : PrivacyLevel) (r : RequestData), P1 < level →
    (redact env level r).2.ipAddress = "" ∧
    (r.ipAddress = "" → redact env level r = ("", r)) ∧
    redact env level ((redact env level r).2) = ("", (redact env level r).2) := by
  intro env level r hl
  have hip : (redact env level r).2.ipAddress = "" := by
    rw [redact_snd_eq, if_pos hl]
  have key : ∀ r' : RequestData, r'.ipAddress = "" →
      redact env level r' = ("", r') := by
    intro r' h
    have h1 : (redact env level r').1 = "" := by
      rw [redact_fst_eq, h]
      split <;> rfl
    have h2 : (redact env level r').2 = r' := by
      rw [redact_snd_eq, if_pos hl, setIp_empty_self r' h]
    calc redact env level r' = ((redact env level r').1, (redact env level r').2) := rfl
      _ = ("", r') := by rw [h1, h2]
  exact ⟨hip, key r, key _ hip⟩

/-- Witness for C8 at a concrete level-2 event carrying an IP. -/
theorem C8_redaction_idempotent_witness :
    (redact geoUS 2 reqGET).2.ipAddress = "" ∧
    redact geoUS 2 ((redact geoUS 2 reqGET).2) = ("", (redact geoUS 2 reqGET).2) :=
  ⟨(C8_redaction_idempotent geoUS 2 reqGET (by decide)).1,
   (C8_redaction_idempotent geoUS 2 reqGET (by decide)).2.2⟩

/-- C10: the privacy level is a plain integer and the redaction thresholds
are comparisons, so every level ≤ 0 (including the Go zero value an omitted
`privacy_level` field decodes to) behaves exactly as `P1` (IP kept, location
inferred), level 1 is `P2` (IP cleared, location inferred from the original
IP) and every level ≥ 2 behaves exactly as `P3` (IP cleared, no location). -/
theorem C10_privacy_level_thresholds :
    ∀ (env : GeoEnv) (level : Int) (r : RequestData),
    (level ≤ P1 →
      redact env level r = redact env P1 r ∧
      redact env level r = (getCountryCode env r.ipAddress, r)) ∧
    (level = P2 →
      redact env level r = (getCountryCode env r.ipAddress, { r with ipAddress := "" })) ∧
    (P3 ≤ level →
      redact env level r = redact env P3 r ∧
      redact env level r = ("", { r with ipAddress := "" })) := by
  intro env level r
  have hpair : ∀ (lv : PrivacyLevel) (r' : RequestData),
      redact env lv r' =
        (if lv < P3 then getCountryCode env r'.ipAddress else "",
         if lv > P1 then { r' with ipAddress := "" } else r') :=
    fun _ _ => rfl
  refine ⟨fun h => ?_, fun h => ?_, fun h => ?_⟩
  · have h0 : level ≤ 0 := h
    have h1 : level < P3 := show level < 2 by omega
    have h2 : ¬ level > P1 := show ¬ (0 : Int) < level by omega
    have h3 : (P1 : Int) < P3 := show (0 : Int) < 2 by omega
    have h4 : ¬ (P1 : Int) > P1 := show ¬ (0 : Int) < 0 by omega
    exact ⟨by rw [hpair level, hpair P1, if_pos h1, if_neg h2, if_pos h3, if_neg h4],
           by rw [hpair level, if_pos h1, if_neg h2]⟩
  · subst h
    have h1 : (P2 : Int) < P3 := show (1 : Int) < 2 by omega
    have h2 : (P2 : Int) > P1 := show (0 : Int) < 1 by omega
    rw [hpair P2, if_pos h1, if_pos h2]
  · have h0 : (2 : Int) ≤ level := h
    have h1 : ¬ level < P3 := show ¬ level < 2 by omega
    have h2 : level > P1 := show (0 : Int) < level by omega
    have h3 : ¬ (P3 : Int) < P3 := show ¬ (2 : Int) < 2 by omega
    have h4 : (P3 : Int) > P1 := show (0 : Int) < 2 by omega
    exact ⟨by rw [hpair level, hpair P3, if_neg h1, if_pos h2, if_neg h3, if_pos h4],
           by rw [hpair level, if_neg h1, if_pos h2]⟩

/-- Witness for C10 at levels -5, 1 and 7. -/
theorem C10_privacy_level_thresholds_witness :
    redact geoUS (-5) reqGET = redact geoUS P1 reqGET ∧
    redact geoUS 1 reqGET =
      (getCountryCode geoUS reqGET.ipAddress, { reqGET with ipAddress := "" }) ∧
    redact geoUS 7 reqGET = ("", { reqGET with ipAddress := "" }) :=
  ⟨((C10_privacy_level_thresholds geoUS (-5) reqGET).1 (by decide)).1,
   (C10_privacy_level_thresholds geoUS 1 reqGET).2.1 rfl,
   ((C10_privacy_level_thresholds geoUS 7 reqGET).2.2 (by decide)).2⟩

theorem admitted_row_ip_loc {P : EventParams} {r : RequestData} {row : Row}
    (h : processEvent P r = .admitted row) :
    row.ipAddress = (redact P.geo P.privacyLevel r).2.ipAddress ∧
    row.location = (redact P.geo P.privacyLevel r).1 := by
  obtain ⟨m, -, -, -, -, -, hrow⟩ := (processEvent_admitted_iff P r row).1 h
  subst hrow
  exact ⟨rfl, rfl⟩

/-- Every row collected by `admittedCapped` comes from an admitted event of
the input list. -/
theorem admittedCapped_mem (P : EventParams) :
    ∀ (cap : Nat) (reqs : List RequestData) (row : Row),
      row ∈ admittedCapped P cap reqs →
      ∃ r ∈ reqs, processEvent P r = .admitted row := by
  intro cap reqs
  induction reqs generalizing cap with
  | nil =>
    intro row h
    simp [admittedCapped] at h
  | cons r rest ih =>
    intro row h
    rw [admittedCapped] at h
    by_cases hc : cap = 0
    · rw [if_pos hc] at h
      simp at h
    · rw [if_neg hc] at h
      split at h
      · rcases List.mem_cons.1 h with he | hm
        · subst he
          exact ⟨r, by simp, by assumption⟩
        · obtain ⟨r', hr', hpe'⟩ := ih (cap - 1) row hm
          exact ⟨r', by simp [hr'], hpe'⟩
      · obtain ⟨r', hr', hpe'⟩ := ih cap row h
        exact ⟨r', by simp [hr'], hpe'⟩

/-- When every event of the list is admitted by `processEvent`, the capped
admission takes `min cap length` rows. -/
theorem admittedCapped_length_all (P : EventParams) :
    ∀ (cap : Nat) (reqs : List RequestData),
      (∀ r ∈ reqs, ∃ row, processEvent P r = .admitted row) →
      (admittedCapped P cap reqs).length = min cap reqs.length := by
  intro cap reqs
  induction reqs generalizing cap with
  | nil =>
    intro _
    simp [admittedCapped]
  | cons r rest ih =>
    intro hall
    rw [admittedCapped]
    by_cases hc : cap = 0
    · rw [if_pos hc, hc]
      simp
    · rw [if_neg hc]
      obtain ⟨row, hrow⟩ := hall r (by simp)
      rw [hrow]
      simp only [List.length_cons]
      rw [ih (cap - 1) (fun x hx => hall x (by simp [hx]))]
      omega

/-- C6: `user_agent`, `user_id`, `hostname` and `path` are truncated to at
most 255 characters before their validation checks run: an admitted row
stores exactly the truncated values and each validator accepted the
truncated value; the truncation bound is 255; and a bad-user-agent drop is
likewise decided on (and records) the truncated user agent. -/
theorem C6_truncate_then_validate :
    (∀ (P : EventParams) (r : RequestData) (row : Row),
        processEvent P r = .admitted row →
        row.userAgent = truncate255 r.userAgent ∧
        row.userID = truncate255 r.userID ∧
        row.hostname = truncate255 r.hostname ∧
        row.path = truncate255 r.path ∧
        P.validators.validUserAgent row.userAgent = true ∧
        P.validators.validUserID row.userID = true ∧
        P.validators.validHostname row.hostname = true ∧
        P.validators.validPath row.path = true) ∧
    (∀ s : String, (truncate255 s).length ≤ 255) ∧
    (∀ (P : EventParams) (r : RequestData) (ua : String),
        processEvent P r = .droppedBadUserAgent ua →
        ua = truncate255 r.userAgent ∧
        P.validators.validUserAgent (truncate255 r.userAgent) = false) := by
  refine ⟨fun P r row h => ?_, truncate255_length_le, fun P r ua h => ?_⟩
  · obtain ⟨m, -, hua, hid, hhn, hp, hrow⟩ := (processEvent_admitted_iff P r row).1 h
    subst hrow
    exact ⟨rfl, rfl, rfl, rfl, hua, hid, hhn, hp⟩
  · obtain ⟨-, hua, hu⟩ := (processEvent_badUserAgent_iff P r ua).1 h
    exact ⟨hu, hua⟩

/-- Witness for C6 at a concrete admitted event. -/
theorem C6_truncate_then_validate_witness :
    rowC.userAgent = truncate255 reqGET.userAgent ∧
    rowC.userID = truncate255 reqGET.userID ∧
    rowC.hostname = truncate255 reqGET.hostname ∧
    rowC.path = truncate255 reqGET.path ∧
    paramsC.validators.validUserAgent rowC.userAgent = true ∧
    paramsC.validators.validUserID rowC.userID = true ∧
    paramsC.validators.validHostname rowC.hostname = true ∧
    paramsC.validators.validPath rowC.path = true :=
  C6_truncate_then_validate.1 paramsC reqGET rowC (by decide)

/-- C3: with an otherwise-valid batch, a zero admitted count after the loop
yields the 400 response "Invalid request data." with no storage call; and an
event with an unknown method is dropped silently — it neither fails the
batch nor changes the loop state. -/
theorem C3_zero_admitted_rejected :
    (∀ (env : HandlerEnv) (p : Payload) (fw : Int),
        p.apiKey ≠ "" → env.rateLimited p.apiKey = false →
        p.requests.length ≠ 0 → frameworkID p.framework = some fw →
        (runBatch env p fw).inserted = 0 →
        logRequestHandler env (some p) =
          ⟨400, "Invalid request data.", false, [], "", [], []⟩) ∧
    (∀ (P : EventParams) (r : RequestData), methodID r.method = none →
        processEvent P r = .dropped) ∧
    (∀ (P : EventParams) (totalLen : Nat) (r : RequestData)
        (rest : List RequestData) (s : LoopState),
        s.inserted < maxInsert → methodID r.method = none →
        insertLoop P totalLen (r :: rest) s = insertLoop P totalLen rest s) := by
  refine ⟨fun env p fw hk hrl hlen hfw hins => ?_,
    processEvent_dropped_of_unknown_method,
    fun P totalLen r rest s hlt hm => ?_⟩
  · simp [logRequestHandler, hk, hrl, hlen, hfw, hins]
  · rw [insertLoop, if_neg (not_le.mpr hlt),
      processEvent_dropped_of_unknown_method P r hm]

/-- Witness for C3: the all-BOGUS one-event batch is rejected with
"Invalid request data." and no storage call. -/
theorem C3_zero_admitted_rejected_witness :
    logRequestHandler envOk (some payloadBogus) =
      ⟨400, "Invalid request data.", false, [], "", [], []⟩ :=
  C3_zero_admitted_rejected.1 envOk payloadBogus 1 (by decide) rfl (by decide)
    rfl (by decide)

/-- C2: the loop builds one statement whose placeholder groups are exactly
one per admitted row (admitted in input order, capped at `maxInsert`;
dropped events contribute nothing), whose flattened placeholder indices are
the contiguous strictly increasing sequence `1..12*n`, and whose flat
argument list has exactly `12*n` entries — the admitted rows' values in
order; the handler's executed statement is exactly this query text (plus the
final ";") with these groups and arguments. -/
theorem C2_single_statement_contiguous :
    (∀ (P : EventParams) (reqs : List RequestData),
      (insertLoop P reqs.length reqs initialLoopState).queryGroups.length =
        (insertLoop P reqs.length reqs initialLoopState).inserted ∧
      (insertLoop P reqs.length reqs initialLoopState).queryGroups.flatten =
        List.range' 1 (12 * (insertLoop P reqs.length reqs initialLoopState).inserted) ∧
      (insertLoop P reqs.length reqs initialLoopState).arguments.length =
        12 * (insertLoop P reqs.length reqs initialLoopState).inserted ∧
      (insertLoop P reqs.length reqs initialLoopState).arguments =
        ((insertLoop P reqs.length reqs initialLoopState).rows.map rowArgs).flatten ∧
      (insertLoop P reqs.length reqs initialLoopState).rows =
        admittedCapped P maxInsert reqs ∧
      (insertLoop P reqs.length reqs initialLoopState).query =
        queryHead ++
          commaSep ((insertLoop P reqs.length reqs initialLoopState).queryGroups.map
            renderGroup)) ∧
    (∀ (env : HandlerEnv) (p : Payload) (fw : Int),
      p.apiKey ≠ "" → env.rateLimited p.apiKey = false →
      p.requests.length ≠ 0 → frameworkID p.framework = some fw →
      (runBatch env p fw).inserted ≠ 0 →
      (logRequestHandler env (some p)).queryGroups = (runBatch env p fw).queryGroups ∧
      (logRequestHandler env (some p)).arguments = (runBatch env p fw).arguments ∧
      (logRequestHandler env (some p)).rows = (runBatch env p fw).rows ∧
      (logRequestHandler env (some p)).query = (runBatch env p fw).query ++ ";") := by
  constructor
  · intro P reqs
    have h := insertLoop_inv P reqs.length reqs initialLoopState initialLoopState_inv
      (by simp [initialLoopState])
    obtain ⟨⟨g1, g2, g3, g4, g5, g6, g7⟩, hrows⟩ := h
    exact ⟨g2, g3, g1, g5, by simpa [initialLoopState] using hrows, g7⟩
  · intro env p fw hk hrl hlen hfw hins
    by_cases hs : env.storageOk <;>
      simp [logRequestHandler, hk, hrl, hlen, hfw, hins, hs]

/-- Witness for C2: the handler's executed statement on a concrete one-event
batch is the loop's query, groups and arguments. -/
theorem C2_single_statement_contiguous_witness :
    (logRequestHandler envOk (some payloadOne)).queryGroups =
      (runBatch envOk payloadOne 1).queryGroups ∧
    (logRequestHandler envOk (some payloadOne)).arguments =
      (runBatch envOk payloadOne 1).arguments ∧
    (logRequestHandler envOk (some payloadOne)).rows =
      (runBatch envOk payloadOne 1).rows ∧
    (logRequestHandler envOk (some payloadOne)).query =
      (runBatch envOk payloadOne 1).query ++ ";" :=
  C2_single_statement_contiguous.2 envOk payloadOne 1 (by decide) rfl (by decide)
    rfl (by decide)

/-- C1: every row stored by an admitted batch obeys the privacy tier of the
batch: under `P1` the stored IP is the input IP and the location is the
GeoIP country code of that IP; under `P2` the stored IP is empty while the
location is inferred from the original IP (so it may be non-empty); under
`P3` both are empty. The country lookup yields "" on every inference
failure: empty IP, unavailable database, unparsable IP, or lookup error. -/
theorem C1_privacy_tiers :
    (∀ (P : EventParams) (reqs : List RequestData) (row : Row),
        row ∈ (insertLoop P reqs.length reqs initialLoopState).rows →
        ∃ r ∈ reqs, processEvent P r = .admitted row ∧
          (P.privacyLevel = P1 →
            row.ipAddress = r.ipAddress ∧
            row.location = getCountryCode P.geo r.ipAddress) ∧
          (P.privacyLevel = P2 →
            row.ipAddress = "" ∧
            row.location = getCountryCode P.geo r.ipAddress) ∧
          (P.privacyLevel = P3 → row.ipAddress = "" ∧ row.location = "")) ∧
    (∀ (env : GeoEnv) (s : String),
        getCountryCode env "" = "" ∧
        (env.dbAvailable = false → getCountryCode env s = "") ∧
        (env.parseIP s = false → getCountryCode env s = "") ∧
        (env.country s = .error () → getCountryCode env s = "")) := by
  constructor
  · intro P reqs row hmem
    have h := insertLoop_inv P reqs.length reqs initialLoopState initialLoopState_inv
      (by simp [initialLoopState])
    rw [h.2] at hmem
    simp only [initialLoopState, List.nil_append, Nat.sub_zero] at hmem
    obtain ⟨r, hr, hpe⟩ := admittedCapped_mem P maxInsert reqs row hmem
    obtain ⟨hip, hloc⟩ := admitted_row_ip_loc hpe
    refine ⟨r, hr, hpe, fun hlvl => ⟨?_, ?_⟩, fun hlvl => ⟨?_, ?_⟩,
      fun hlvl => ⟨?_, ?_⟩⟩
    · rw [hip, redact_snd_eq, hlvl, if_neg (show ¬ P1 > P1 by decide)]
    · rw [hloc, redact_fst_eq, hlvl, if_pos (show P1 < P3 by decide)]
    · rw [hip, redact_snd_eq, hlvl, if_pos (show P2 > P1 by decide)]
    · rw [hloc, redact_fst_eq, hlvl, if_pos (show P2 < P3 by decide)]
    · rw [hip, redact_snd_eq, hlvl, if_pos (show P3 > P1 by decide)]
    · rw [hloc, redact_fst_eq, hlvl, if_neg (show ¬ P3 < P3 by decide)]
  · intro env s
    refine ⟨rfl, fun h => ?_, fun h => ?_, fun h => ?_⟩ <;>
      by_cases hs : s = "" <;> simp [getCountryCode, hs, h]

/-- Witness for C1: the concrete one-event `P1` batch stores the input IP
and the looked-up country, and the lookup fails to "" without a database. -/
theorem C1_privacy_tiers_witness :
    (∃ r ∈ [reqGET], processEvent paramsC r = .admitted rowC ∧
      (paramsC.privacyLevel = P1 →
        rowC.ipAddress = r.ipAddress ∧
        rowC.location = getCountryCode paramsC.geo r.ipAddress) ∧
      (paramsC.privacyLevel = P2 →
        rowC.ipAddress = "" ∧
        rowC.location = getCountryCode paramsC.geo r.ipAddress) ∧
      (paramsC.privacyLevel = P3 → rowC.ipAddress = "" ∧ rowC.location = "")) ∧
    getCountryCode geoNone "8.8.8.8" = "" :=
  ⟨C1_privacy_tiers.1 paramsC [reqGET] rowC (by decide),
   (C1_privacy_tiers.2 geoNone "8.8.8.8").2.1 rfl⟩

/-- C5: at most `maxInsert = 2000` rows enter the single insert statement;
a batch of 3000 well-formed events yields exactly 2000 stored rows and 1000
silently excluded ones, with a 201 success response when the storage write
succeeds. -/
theorem C5_row_ceiling :
    maxInsert = 2000 ∧
    (∀ (P : EventParams) (reqs : List RequestData),
        (insertLoop P reqs.length reqs initialLoopState).inserted ≤ maxInsert) ∧
    (∀ (env : HandlerEnv) (p : Payload) (fw : Int),
        p.apiKey ≠ "" → env.rateLimited p.apiKey = false →
        frameworkID p.framework = some fw →
        (∀ r ∈ p.requests, ∃ row,
            processEvent ⟨env.geo, env.validators, p.privacyLevel, fw, p.apiKey⟩ r =
              .admitted row) →
        p.requests.length = 3000 → env.storageOk = true →
        (logRequestHandler env (some p)).status = 201 ∧
        (logRequestHandler env (some p)).message = "API requests logged successfully." ∧
        (logRequestHandler env (some p)).storageCalled = true ∧
        (logRequestHandler env (some p)).rows.length = 2000 ∧
        p.requests.length - (logRequestHandler env (some p)).rows.length = 1000) := by
  refine ⟨rfl, fun P reqs => ?_, fun env p fw hk hrl hfw hall h3000 hsok => ?_⟩
  · exact (insertLoop_inv P reqs.length reqs initialLoopState initialLoopState_inv
      (by simp [initialLoopState])).1.2.2.2.1
  · have hlen0 : ¬ p.requests.length = 0 := by omega
    have h := insertLoop_inv ⟨env.geo, env.validators, p.privacyLevel, fw, p.apiKey⟩
      p.requests.length p.requests initialLoopState initialLoopState_inv
      (by simp [initialLoopState])
    have hlenrows :
        (runBatch env p fw).rows.length = 2000 := by
      show (insertLoop ⟨env.geo, env.validators, p.privacyLevel, fw, p.apiKey⟩
        p.requests.length p.requests initialLoopState).rows.length = 2000
      rw [show (insertLoop ⟨env.geo, env.validators, p.privacyLevel, fw, p.apiKey⟩
          p.requests.length p.requests initialLoopState).rows =
          admittedCapped ⟨env.geo, env.validators, p.privacyLevel, fw, p.apiKey⟩
            maxInsert p.requests from by simpa [initialLoopState] using h.2]
      rw [admittedCapped_length_all _ maxInsert p.requests hall, h3000]
      simp [maxInsert]
    have hins : (runBatch env p fw).inserted = 2000 := by
      have h6 := h.1.2.2.2.2.2.1
      show (insertLoop ⟨env.geo, env.validators, p.privacyLevel, fw, p.apiKey⟩
        p.requests.length p.requests initialLoopState).inserted = 2000
      rw [← h6]
      exact hlenrows
    have hins0 : ¬ (runBatch env p fw).inserted = 0 := by
      rw [hins]
      omega
    have hout : logRequestHandler env (some p) =
        ⟨201, "API requests logged successfully.", true,
          (runBatch env p fw).queryGroups, (runBatch env p fw).query ++ ";",
          (runBatch env p fw).arguments, (runBatch env p fw).rows⟩ := by
      simp [logRequestHandler, hk, hrl, hlen0, hfw, hins0, hsok]
    rw [hout]
    exact ⟨rfl, rfl, rfl, hlenrows, by rw [h3000, hlenrows]⟩

/-- Witness for C5: 3000 concrete well-formed events produce a 201 response
with exactly 2000 stored rows and 1000 excluded. -/
theorem C5_row_ceiling_witness :
    (logRequestHandler envOk (some payload3000)).status = 201 ∧
    (logRequestHandler envOk (some payload3000)).rows.length = 2000 ∧
    payload3000.requests.length - (logRequestHandler envOk (some payload3000)).rows.length
      = 1000 := by
  have h := C5_row_ceiling.2.2 envOk payload3000 1 (by decide) rfl rfl
    (by
      intro r hr
      have hr2 : r ∈ List.replicate 3000 reqGET := hr
      have hr3 : r = reqGET := List.eq_of_mem_replicate hr2
      subst hr3
      exact ⟨rowC, by decide⟩)
    (by
      rw [show payload3000.requests = List.replicate 3000 reqGET from rfl,
        List.length_replicate]) rfl
  exact ⟨h.1, h.2.2.2.1, h.2.2.2.2⟩

/-- C9: the interleaving read₁, read₂, write₁, write₂ of two concurrent
unsynchronized appends to the client's global `requests` buffer loses the
first event: the final buffer holds only the second event. -/
theorem C9_lost_update :
    (runRace e1C e2C [true, false, true, false]).shared = [e2C] ∧
    e1C ∉ (runRace e1C e2C [true, false, true, false]).shared ∧
    e1C ≠ e2C := by
  refine ⟨rfl, ?_, by decide⟩
  decide

end ApiAnalytics
